import Mathlib

/-!
Shallow embedding of the critical-point detection, windowing, classification
and threshold-projection code of the sitka_irg_analysis repository
(src/utils/ir_reading.py, src/utils/analysis_utils.py, src/plot_heights.py).

Timestamps are modelled as integer minutes since an arbitrary epoch (all
gauge data in the repository is at 15-minute or hourly granularity), heights
as rationals.  Fallible Python code (indexing, list.index, list.remove,
min([]), division by zero, assert) is modelled with Except.
-/

/-- Python-level errors that the embedded code can raise. -/
inductive PyErr where
  | indexError
  | valueError
  | zeroDivisionError
  | assertionError
deriving DecidableEq, Repr

instance [DecidableEq ε] [DecidableEq α] : DecidableEq (Except ε α) := fun a b =>
  match a, b with
  | .error e, .error f =>
    if h : e = f then isTrue (by rw [h]) else isFalse (by intro c; injection c; exact h (by assumption))
  | .ok x, .ok y =>
    if h : x = y then isTrue (by rw [h]) else isFalse (by intro c; injection c; exact h (by assumption))
  | .error _, .ok _ => isFalse (fun c => Except.noConfusion c)
  | .ok _, .error _ => isFalse (fun c => Except.noConfusion c)

/-- utils/ir_reading.py: IRReading namedtuple.  dt is in minutes. -/
structure IRReading where
  dt : ℤ
  height : ℚ
deriving DecidableEq, Repr

/-- slide_event.py: a known slide event.  The name is modelled as a numeric
identifier. -/
structure SlideEvent where
  dtSlide : ℤ
  name : ℕ
deriving DecidableEq, Repr

/-- Resolve one bound of a Python slice l[a:b] against a list of length n:
negative indices count from the end, out-of-range values are clamped. -/
def pySliceIdx (n : ℕ) (a : ℤ) : ℕ :=
  if a < 0 then ((n : ℤ) + a).toNat else min a.toNat n

/-- Python slice l[a:b] (step 1). -/
def pySlice (l : List α) (a b : ℤ) : List α :=
  (l.take (pySliceIdx l.length b)).drop (pySliceIdx l.length a)

/-- Python indexing l[i], raising IndexError when out of range; negative
indices count from the end. -/
def pyGet (l : List α) (i : ℤ) : Except PyErr α :=
  let j : ℤ := if i < 0 then i + l.length else i
  if h : 0 ≤ j ∧ j.toNat < l.length then .ok (l.get ⟨j.toNat, h.2⟩)
  else .error .indexError

/-- Python list.index: position of the first equal element, ValueError when
absent. -/
def pyIndex [DecidableEq α] : List α → α → Except PyErr ℕ
  | [], _ => .error .valueError
  | x :: xs, a => if x = a then .ok 0 else (pyIndex xs a).map (· + 1)

/-- Python list.remove: drop the first equal element, ValueError when
absent. -/
def pyRemove [DecidableEq α] : List α → α → Except PyErr (List α)
  | [], _ => .error .valueError
  | x :: xs, a => if x = a then .ok xs else (pyRemove xs a).map (x :: ·)

/-- Python enumerate, with an explicit starting index. -/
def enumFrom : ℕ → List α → List (ℕ × α)
  | _, [] => []
  | n, x :: xs => (n, x) :: enumFrom (n + 1) xs

/-- Minimum of a (nonempty) list of readings' heights, as Python's
min([r.height for r in l]); the empty case is guarded at call sites. -/
def heightsMin : List IRReading → ℚ
  | [] => 0
  | r :: rest => rest.foldl (fun m x => min m x.height) r.height

-- Critical values (src/utils/analysis_utils.py lines 17-19).
def RISE_CRITICAL : ℚ := 5 / 2
def M_CRITICAL : ℚ := 1 / 2
def RIVER_MIN_HEIGHT : ℚ := 41 / 2

/-- utils/ir_reading.py get_rise: later height minus earlier height. -/
def get_rise (reading reading_2 : IRReading) : ℚ :=
  reading.height - reading_2.height

/-- utils/ir_reading.py get_slope: |Δheight / Δhours|.  Timestamps are
minutes, so Δhours = Δminutes / 60. -/
def get_slope (reading reading_2 : IRReading) : ℚ :=
  |(reading.height - reading_2.height) / (((reading.dt - reading_2.dt : ℤ) : ℚ) / 60)|

/-- The inner test of both detector scans: rise >= RISE_CRITICAL and
slope > M_CRITICAL (analysis_utils.py lines 220 and 285). -/
def isCriticalPair (reading prev_reading : IRReading) : Bool :=
  decide (RISE_CRITICAL ≤ get_rise reading prev_reading) &&
  decide (M_CRITICAL < get_slope reading prev_reading)

/-- analysis_utils.py get_reading_rate: readings per hour inferred from the
gap between the first two readings; int(60/interval) truncates toward zero,
and a zero interval raises ZeroDivisionError. -/
def get_reading_rate (readings : List IRReading) : Except PyErr ℤ := do
  let r0 ← pyGet readings 0
  let r1 ← pyGet readings 1
  let reading_interval : ℤ := r1.dt - r0.dt
  if reading_interval = 0 then .error .zeroDivisionError
  else .ok (Int.tdiv 60 reading_interval)

/-- The debounce test of get_first_critical_points line 291:
(Δseconds) // 3600 > 12, on timestamps in minutes. -/
def debounceAccept (last reading : IRReading) : Bool :=
  decide (12 < Int.fdiv (60 * (reading.dt - last.dt)) 3600)

/-- analysis_utils.py get_first_critical_points (lines 256-298).  The scan
enumerates readings[max_lookback:], so reading_index is an offset into the
slice while the prev_readings slice indexes the full list with it; slices
with negative bounds follow Python semantics. -/
def get_first_critical_points (readings : List IRReading) :
    Except PyErr (List IRReading) := do
  let lookback_factor ← get_reading_rate readings
  let max_lookback : ℤ := 5 * lookback_factor
  let scan := pySlice readings max_lookback readings.length
  let step := fun (acc : List IRReading) (kr : ℕ × IRReading) =>
    let prev_readings := pySlice readings ((kr.1 : ℤ) - max_lookback) (kr.1 : ℤ)
    if prev_readings.any (fun p => isCriticalPair kr.2 p) then
      match acc.getLast? with
      | none => acc ++ [kr.2]
      | some last => if debounceAccept last kr.2 then acc ++ [kr.2] else acc
    else acc
  return (enumFrom 0 scan).foldl step []

/-- analysis_utils.py get_critical_points (lines 188-226): same scan, with
the RIVER_MIN_HEIGHT + RISE_CRITICAL short-circuit and no debounce. -/
def get_critical_points (readings : List IRReading) :
    Except PyErr (List IRReading) := do
  let readings_per_hr ← get_reading_rate readings
  let max_lookback : ℤ := 5 * readings_per_hr
  let scan := pySlice readings max_lookback readings.length
  let step := fun (acc : List IRReading) (kr : ℕ × IRReading) =>
    if kr.2.height < RIVER_MIN_HEIGHT + RISE_CRITICAL then acc
    else
      let prev_readings := pySlice readings ((kr.1 : ℤ) - max_lookback) (kr.1 : ℤ)
      if prev_readings.any (fun p => isCriticalPair kr.2 p) then acc ++ [kr.2]
      else acc
  return (enumFrom 0 scan).foldl step []

/-- get_critical_points without the baseline-height short-circuit, for the
refinement comparison of the claim that the short-circuit does not change
the result. -/
def get_critical_points_no_skip (readings : List IRReading) :
    Except PyErr (List IRReading) := do
  let readings_per_hr ← get_reading_rate readings
  let max_lookback : ℤ := 5 * readings_per_hr
  let scan := pySlice readings max_lookback readings.length
  let step := fun (acc : List IRReading) (kr : ℕ × IRReading) =>
    let prev_readings := pySlice readings ((kr.1 : ℤ) - max_lookback) (kr.1 : ℤ)
    if prev_readings.any (fun p => isCriticalPair kr.2 p) then acc ++ [kr.2]
    else acc
  return (enumFrom 0 scan).foldl step []

/-- analysis_utils.py get_48hr_readings (lines 301-312): slice 24 hours of
readings on each side of the first critical point's index, with Python
slice semantics (negative start indices wrap). -/
def get_48hr_readings (first_critical_point : IRReading)
    (all_readings : List IRReading) : Except PyErr (List IRReading) := do
  let readings_per_hr ← get_reading_rate all_readings
  let fcp_index ← pyIndex all_readings first_critical_point
  let start_index : ℤ := (fcp_index : ℤ) - 24 * readings_per_hr
  let end_index : ℤ := (fcp_index : ℤ) + 24 * readings_per_hr
  return pySlice all_readings start_index end_index

/-- plot_heights.py get_relevant_slide (lines 169-181): first known slide
whose timestamp lies between the first and last reading of the set. -/
def get_relevant_slide (readings : List IRReading) :
    List SlideEvent → Except PyErr (Option SlideEvent)
  | [] => .ok none
  | slide :: rest => do
    let first ← pyGet readings 0
    let last ← pyGet readings (-1)
    if first.dt ≤ slide.dtSlide ∧ slide.dtSlide ≤ last.dt then
      return (some slide)
    else
      get_relevant_slide readings rest

/-- plot_heights.py get_notification_time (lines 184-192): minutes between
the first critical point and the slide (exact at minute granularity). -/
def get_notification_time (critical_points : List IRReading)
    (relevant_slide : SlideEvent) : Except PyErr ℤ := do
  let c0 ← pyGet critical_points 0
  return relevant_slide.dtSlide - c0.dt

/-- analysis_utils.py get_slides_in_range (lines 315-320). -/
def get_slides_in_range (known_slides : List SlideEvent)
    (readings : List IRReading) : Except PyErr (List SlideEvent) := do
  let first ← pyGet readings 0
  let last ← pyGet readings (-1)
  return known_slides.filter
    (fun s => decide (first.dt ≤ s.dtSlide ∧ s.dtSlide ≤ last.dt))

/-- utils/stats.py: the mutable stats accumulator.  notification_times is a
dict slide -> minutes, modelled as an association list. -/
structure Stats where
  earliest : Option IRReading
  latest : Option IRReading
  notificationsIssued : ℕ
  associatedNotifications : ℕ
  unassociatedNotifications : ℕ
  unassociatedNotificationPoints : List IRReading
  relevantSlides : List SlideEvent
  unassociatedSlides : List SlideEvent
  notificationTimes : List (SlideEvent × ℤ)
deriving DecidableEq, Repr

/-- utils/stats.py initial stats dict. -/
def stats0 : Stats :=
  { earliest := none, latest := none, notificationsIssued := 0,
    associatedNotifications := 0, unassociatedNotifications := 0,
    unassociatedNotificationPoints := [], relevantSlides := [],
    unassociatedSlides := [], notificationTimes := [] }

/-- The body of the critical-set loop of analysis_utils.get_reading_sets
(lines 145-161): classify one 48-hour reading set against the known slides,
updating the stats and the list of slides still in range. -/
def process_critical_set (known_slides : List SlideEvent)
    (state : List SlideEvent × Stats) (reading_set : List IRReading) :
    Except PyErr (List SlideEvent × Stats) := do
  let (slides_in_range, stats) := state
  let critical_points ← get_critical_points reading_set
  let relevant_slide ← get_relevant_slide reading_set known_slides
  match relevant_slide with
  | some slide => do
    let notification_time ← get_notification_time critical_points slide
    let slides_in_range' ← pyRemove slides_in_range slide
    return (slides_in_range',
      { stats with
        relevantSlides := stats.relevantSlides ++ [slide],
        associatedNotifications := stats.associatedNotifications + 1,
        notificationTimes := stats.notificationTimes ++ [(slide, notification_time)] })
  | none => do
    let p0 ← pyGet critical_points 0
    return (slides_in_range,
      { stats with
        unassociatedNotificationPoints := stats.unassociatedNotificationPoints ++ [p0],
        unassociatedNotifications := stats.unassociatedNotifications + 1 })

/-- The body of the unassociated-slide loop of get_reading_sets (lines
163-175): 48 hours of readings around the first reading after the slide,
when there is one; the slide is recorded as unassociated either way. -/
def process_leftover_slide (readings : List IRReading)
    (state : List (List IRReading) × Stats) (slide : SlideEvent) :
    Except PyErr (List (List IRReading) × Stats) := do
  let (slide_reading_sets, stats) := state
  let stats' := { stats with unassociatedSlides := stats.unassociatedSlides ++ [slide] }
  match readings.find? (fun r => decide (slide.dtSlide < r.dt)) with
  | some reading => do
    let slide_readings ← get_48hr_readings reading readings
    return (slide_reading_sets ++ [slide_readings], stats')
  | none => return (slide_reading_sets, stats')

/-- analysis_utils.py get_reading_sets (lines 105-177). -/
def get_reading_sets (readings : List IRReading)
    (known_slides : List SlideEvent) (stats : Stats) :
    Except PyErr (List (List IRReading) × Stats) := do
  let stats ← do
    match stats.earliest with
    | none => do
      let r0 ← pyGet readings 0
      let rl ← pyGet readings (-1)
      pure { stats with earliest := some r0, latest := some rl }
    | some e => do
      let r0 ← pyGet readings 0
      let rl ← pyGet readings (-1)
      let stats := if r0.dt < e.dt then { stats with earliest := some r0 } else stats
      let stats :=
        match stats.latest with
        | some l => if l.dt < rl.dt then { stats with latest := some rl } else stats
        | none => { stats with latest := some rl }
      pure stats
  let slides_in_range ← get_slides_in_range known_slides readings
  let first_critical_points ← get_first_critical_points readings
  let stats := { stats with
    notificationsIssued := stats.notificationsIssued + first_critical_points.length }
  let critical_reading_sets ←
    first_critical_points.mapM (fun fcp => get_48hr_readings fcp readings)
  let (slides_in_range, stats) ←
    critical_reading_sets.foldlM (process_critical_set known_slides)
      (slides_in_range, stats)
  let (slide_reading_sets, stats) ←
    slides_in_range.foldlM (process_leftover_slide readings) ([], stats)
  return (critical_reading_sets ++ slide_reading_sets, stats)

/-- analysis_utils.py get_earliest_latest_readings (lines 322-336): the
earliest and latest readings across a list of reading sets, seeded from the
first reading of the first set and the last reading of the last set; note
the source's elif, so one reading never updates both. -/
def get_earliest_latest_readings (reading_sets : List (List IRReading)) :
    Except PyErr (IRReading × IRReading) := do
  let first_set ← pyGet reading_sets 0
  let earliest0 ← pyGet first_set 0
  let last_set ← pyGet reading_sets (-1)
  let latest0 ← pyGet last_set (-1)
  let step := fun (el : IRReading × IRReading) (r : IRReading) =>
    if r.dt < el.1.dt then (r, el.2)
    else if el.2.dt < r.dt then (el.1, r)
    else el
  return reading_sets.foldl (fun el rs => rs.foldl step el) (earliest0, latest0)

/-- analysis_utils.py summarize_results (lines 339-372), up to the printing:
recompute earliest/latest from the reading sets, assert the notification
counts, rebuild unassociated_slides as a set difference, then move known
slides outside [earliest, latest] out of it.  Returns the final stats and
the slides reported outside the analyzed range. -/
def summarize_results (reading_sets : List (List IRReading))
    (known_slides : List SlideEvent) (stats : Stats) :
    Except PyErr (Stats × List SlideEvent) := do
  let (earliest, latest) ← get_earliest_latest_readings reading_sets
  let stats := { stats with earliest := some earliest, latest := some latest }
  if stats.unassociatedNotifications ≠ stats.unassociatedNotificationPoints.length then
    .error .assertionError
  else do
    let unassociated0 :=
      known_slides.filter (fun s => !(stats.relevantSlides.contains s))
    let (unassociated, outside) ← known_slides.foldlM
      (fun (st : List SlideEvent × List SlideEvent) slide =>
        if slide.dtSlide < earliest.dt ∨ latest.dt < slide.dtSlide then do
          let ul ← pyRemove st.1 slide
          return (ul, st.2 ++ [slide])
        else return st)
      (unassociated0, [])
    return ({ stats with unassociatedSlides := unassociated }, outside)

/-- plot_heights.py plot_data_static lines 367-373: the 18 future timestamps,
once every 15 minutes after the last reading. -/
def futureTimes (last_dt : ℤ) : List ℤ :=
  (List.range 18).map (fun (k : ℕ) => last_dt + 15 * ((k : ℤ) + 1))

/-- One step of the forward threshold projection of plot_data_static (lines
383-402): the minimum height over the last 5 hours of readings (historical
readings at or after t - 5h, plus every projected reading so far) plus the
critical rise, raised to first-height + 5 * M_CRITICAL when the implied
5-hour average rate falls short; min([]) raises ValueError. -/
def minCfStep (readings : List IRReading) (min_cf_readings : List IRReading)
    (t : ℤ) : Except PyErr (List IRReading) := do
  let relevant_readings :=
    readings.filter (fun r => decide (t - 300 ≤ r.dt)) ++ min_cf_readings
  match relevant_readings with
  | [] => .error .valueError
  | r0 :: _ =>
    let critical_height := heightsMin relevant_readings + RISE_CRITICAL
    let m_avg := (critical_height - r0.height) / 5
    let critical_height :=
      if m_avg < M_CRITICAL then 5 * M_CRITICAL + r0.height else critical_height
    return min_cf_readings ++ [⟨t, critical_height⟩]

/-- plot_heights.py plot_data_static forward projection (lines 381-405):
fold minCfStep over the 18 future timestamps. -/
def min_cf_readings (readings : List IRReading) :
    Except PyErr (List IRReading) := do
  let latest_reading ← pyGet readings (-1)
  (futureTimes latest_reading.dt).foldlM (minCfStep readings) []

/-- An hourly series: reading i at minute 60*i with the given height. -/
def hourlySeries (heights : List ℚ) : List IRReading :=
  (enumFrom 0 heights).map (fun kh => ⟨60 * (kh.1 : ℤ), kh.2⟩)

/-- A 15-minute series: reading i at minute 15*i with the given height. -/
def quarterSeries (heights : List ℚ) : List IRReading :=
  (enumFrom 0 heights).map (fun kh => ⟨15 * (kh.1 : ℤ), kh.2⟩)

/-- Hourly series where the reading at the first index i >= lookback rises
3 ft above the five readings immediately preceding it. -/
def seriesRiseAtSix : List IRReading :=
  hourlySeries [20, 20, 20, 20, 20, 20, 23, 23, 23, 23, 23]

/-- 15-minute series, flat at 20 ft except for qualifying spikes at indices
40 and 90 (12.5 hours apart). -/
def seriesTwoSpikes : List IRReading :=
  quarterSeries ((List.range 100).map (fun i => if i = 40 ∨ i = 90 then 23 else 20))

/-- 200-sample 15-minute series, flat at 20 ft. -/
def seriesFlat200 : List IRReading :=
  quarterSeries ((List.range 200).map (fun _ => (20 : ℚ)))

/-- Hourly 40-sample series at 19 ft with a qualifying reading of 22.5 ft at
index 30 (below RIVER_MIN_HEIGHT + RISE_CRITICAL). -/
def seriesLowSpike : List IRReading :=
  hourlySeries ((List.range 40).map (fun i => if i = 30 then 45/2 else 19))

/-- Hourly 40-sample series at 20 ft with a qualifying reading of 23.5 ft
at index 30. -/
def seriesLongSpike : List IRReading :=
  hourlySeries ((List.range 40).map (fun i => if i = 30 then 47/2 else 20))

/-- Hourly 11-sample series at 17 ft with a reading of 21 ft at index 10:
a qualifying rise whose height stays below RIVER_MIN_HEIGHT + RISE_CRITICAL. -/
def seriesBelowFloor : List IRReading :=
  hourlySeries [17, 17, 17, 17, 17, 17, 17, 17, 17, 17, 21]

/-- Hourly 11-sample series at 20 ft with a qualifying reading of 23.5 ft at
index 10. -/
def seriesSpikeAtTen : List IRReading :=
  hourlySeries [20, 20, 20, 20, 20, 20, 20, 20, 20, 20, 47/2]

/-- Three flat hourly readings: strictly fewer readings than the lookback. -/
def seriesShort : List IRReading :=
  hourlySeries [20, 20, 20]

/-- Flat 15-minute historical series at 20.5 ft (one hour of readings). -/
def seriesFlatBase : List IRReading :=
  quarterSeries [41/2, 41/2, 41/2, 41/2]

/-- A slide event 90 minutes into the analyzed data. -/
def slideEarly : SlideEvent := ⟨90, 0⟩

/-- The full analysis run of process_hx_data.py on seriesLongSpike and one
known slide: get_reading_sets followed by summarize_results. -/
def longSpikeRun : Except PyErr (Stats × List SlideEvent) := do
  let (reading_sets, stats) ←
    get_reading_sets seriesLongSpike [slideEarly] stats0
  summarize_results reading_sets [slideEarly] stats

/-- The scan of get_first_critical_points without the inline debounce: every
reading whose backward slice contains a qualifying prior reading, in order,
given the max_lookback value. -/
def critical_candidates (readings : List IRReading) (max_lookback : ℤ) :
    List IRReading :=
  (enumFrom 0 (pySlice readings max_lookback readings.length)).foldl
    (fun acc kr =>
      if (pySlice readings ((kr.1 : ℤ) - max_lookback) (kr.1 : ℤ)).any
          (fun p => isCriticalPair kr.2 p) then acc ++ [kr.2]
      else acc) []

/-- The de-duplication walk of get_first_critical_points lines 287-296 in
isolation: accept a point when none has been accepted yet, or when the
debounce test against the previously accepted point passes. -/
def debouncePass (points : List IRReading) : List IRReading :=
  points.foldl
    (fun acc r =>
      match acc.getLast? with
      | none => acc ++ [r]
      | some last => if debounceAccept last r then acc ++ [r] else acc) []

/-- The 48-hour reading set that get_48hr_readings extracts around the
first critical point of seriesLongSpike (clipped at the series end). -/
def windowLongSpike : List IRReading := pySlice seriesLongSpike 6 54

/-- A slide event 1000 minutes into the analyzed data, inside
windowLongSpike. -/
def slideMid : SlideEvent := ⟨1000, 5⟩

/-- One step of the backward threshold projection of plot_data_static
(lines 416-435): the minimum height over the historical readings in
[t - 5h, t) plus the critical rise, raised to first-height + 5 * M_CRITICAL
when the implied 5-hour average rate falls short; min([]) raises
ValueError. -/
def minCritPrevStep (readings : List IRReading)
    (min_crit_prev : List IRReading) (t : ℤ) : Except PyErr (List IRReading) := do
  let relevant_readings :=
    readings.filter (fun r => decide (t - 300 ≤ r.dt ∧ r.dt < t))
  match relevant_readings with
  | [] => .error .valueError
  | r0 :: _ =>
    let critical_height := heightsMin relevant_readings + RISE_CRITICAL
    let m_avg := (critical_height - r0.height) / 5
    let critical_height :=
      if m_avg < M_CRITICAL then 5 * M_CRITICAL + r0.height else critical_height
    return min_crit_prev ++ [⟨t, critical_height⟩]

/-- plot_data_static lines 410-415: the timestamps of the readings in the
12 hours up to the latest reading. -/
def prev_datetimes (readings : List IRReading) (latest_reading : IRReading) :
    List ℤ :=
  (readings.filter (fun r => decide (latest_reading.dt - 720 ≤ r.dt))).map
    (fun r => r.dt)

/-- plot_heights.py plot_data_static backward projection (lines 407-438):
fold minCritPrevStep over the timestamps of the trailing 12 hours of
readings. -/
def min_crit_prev_readings (readings : List IRReading) :
    Except PyErr (List IRReading) := do
  let latest_reading ← pyGet readings (-1)
  (prev_datetimes readings latest_reading).foldlM (minCritPrevStep readings) []

/-- Hourly strictly falling series: no reading has a prior reading below
it, so nothing qualifies as critical. -/
def seriesFalling : List IRReading :=
  hourlySeries [27, 26, 25]

/-- Flat hourly series at 20.5 ft spanning 19 hours, long enough for the
backward projection's 12-hour sweep. -/
def seriesFlatLong : List IRReading :=
  hourlySeries ((List.range 20).map (fun _ => (41 : ℚ)/2))

set_option maxRecDepth 1000000

lemma pySlice_sublist (l : List α) (a b : ℤ) : (pySlice l a b).Sublist l :=
  ((l.take (pySliceIdx l.length b)).drop_sublist (pySliceIdx l.length a)).trans
    (l.take_sublist (pySliceIdx l.length b))

lemma mem_of_mem_pySlice {l : List α} {a b : ℤ} {x : α} (h : x ∈ pySlice l a b) :
    x ∈ l :=
  (pySlice_sublist l a b).subset h

@[simp] lemma ok_bind (a : α) (f : α → Except ε β) :
    (Except.ok a : Except ε α) >>= f = f a := rfl

@[simp] lemma error_bind (e : ε) (f : α → Except ε β) :
    (Except.error e : Except ε α) >>= f = .error e := rfl

@[simp] lemma except_pure_bind (a : α) (f : α → Except ε β) :
    (pure a : Except ε α) >>= f = f a := rfl

lemma mem_of_mem_enumFrom {x : ℕ × α} : ∀ {n : ℕ} {l : List α},
    x ∈ enumFrom n l → x.2 ∈ l
  | _, [], h => by simp [enumFrom] at h
  | n, a :: l, h => by
    simp only [enumFrom] at h
    rcases List.mem_cons.mp h with h | h
    · rw [h]
      exact List.mem_cons_self a l
    · exact List.mem_cons_of_mem _ (mem_of_mem_enumFrom h)

lemma foldl_fixed {f : α → β → α} : ∀ (l : List β) (acc : α),
    (∀ acc' x, x ∈ l → f acc' x = acc') → l.foldl f acc = acc
  | [], _, _ => rfl
  | x :: l, acc, h => by
    rw [List.foldl_cons, h acc x (List.mem_cons_self x l)]
    exact foldl_fixed l acc (fun acc' y hy => h acc' y (List.mem_cons_of_mem x hy))

lemma pyGet_cons_zero (a : α) (l : List α) : pyGet (a :: l) 0 = .ok a := by
  simp [pyGet]

lemma pyGet_cons_cons_one (a b : α) (l : List α) : pyGet (a :: b :: l) 1 = .ok b := by
  simp [pyGet]

lemma isCriticalPair_eq_true_iff (r p : IRReading) :
    isCriticalPair r p = true ↔
      RISE_CRITICAL ≤ get_rise r p ∧ M_CRITICAL < get_slope r p := by
  simp [isCriticalPair]

lemma get_reading_rate_cons (l : List IRReading) (r0 r1 : IRReading)
    (h0 : pyGet l 0 = .ok r0) (h1 : pyGet l 1 = .ok r1) (hne : r1.dt - r0.dt ≠ 0) :
    get_reading_rate l = .ok (Int.tdiv 60 (r1.dt - r0.dt)) := by
  simp [get_reading_rate, h0, h1, hne]

lemma pySlice_eq_nil_of_le (l : List α) (a : ℤ) (h : (l.length : ℤ) ≤ a) :
    pySlice l a (l.length : ℤ) = [] := by
  have ha : ¬ a < 0 := by omega
  have hta : l.length ≤ a.toNat := by omega
  have h1 : pySliceIdx l.length a = l.length := by
    simp [pySliceIdx, ha, Nat.min_eq_right hta]
  have h2 : pySliceIdx l.length (l.length : ℤ) = l.length := by
    simp [pySliceIdx]
  rw [pySlice, h1, h2, List.drop_eq_nil_iff]
  simp

/-- C1.  Counterexample evaluation: in seriesRiseAtSix the reading at index 6
satisfies the claim's criterion (a prior reading among the lookback = 5
readings immediately preceding index 6 with rise >= RISE_CRITICAL and slope
> M_CRITICAL), yet the detector reports no critical point at all: the scan
enumerates readings[lookback:] and reuses the slice-relative index against
the full list, so each reading is compared with a window shifted back by
lookback positions instead of the readings immediately preceding it. -/
theorem c1_lookback_window_shift :
    get_first_critical_points seriesRiseAtSix = .ok [] ∧
    seriesRiseAtSix.get? 6 = some ⟨360, 23⟩ ∧
    ∃ p ∈ (seriesRiseAtSix.drop 1).take 5,
      RISE_CRITICAL ≤ get_rise ⟨360, 23⟩ p ∧ M_CRITICAL < get_slope ⟨360, 23⟩ p := by
  with_unfolding_all decide

/-- C3.  Counterexample evaluation: the anchor at index 2 of the 200-sample
15-minute seriesFlat200 yields the empty window, not a window clamped to
start at index 0 (which would be the 98 readings [0:98)): the start index
2 - 96 = -94 wraps to position 106 under Python slice semantics, which lies
beyond the end index 98. -/
theorem c3_window_not_clamped :
    get_48hr_readings ⟨30, 20⟩ seriesFlat200 = .ok [] ∧
    seriesFlat200.get? 2 = some ⟨30, 20⟩ ∧
    seriesFlat200.length = 200 ∧
    (pySlice seriesFlat200 0 98).length = 98 := by
  with_unfolding_all decide

/-- C7, counterexample: seriesShort has 3 readings, fewer than the inferred
lookback 5 * 1, yet the detector returns the empty list of critical points
rather than failing with any error (no InsufficientDataError exists in the
code). -/
theorem c7_short_series_counterexample :
    get_first_critical_points seriesShort = .ok [] ∧
    seriesShort.length = 3 ∧ get_reading_rate seriesShort = .ok 1 := by
  with_unfolding_all decide

/-- C7, amended: for a series with at least two readings, a nonzero first
interval, and length at most the inferred lookback
ceil(RISE_CRITICAL / M_CRITICAL) * readings-per-hour = 5 * (60 tdiv interval),
the detector returns the empty sequence without raising anything. -/
theorem c7_short_series_empty (readings : List IRReading) (r0 r1 : IRReading)
    (h0 : pyGet readings 0 = .ok r0) (h1 : pyGet readings 1 = .ok r1)
    (hne : r1.dt - r0.dt ≠ 0)
    (hlen : (readings.length : ℤ) ≤ 5 * Int.tdiv 60 (r1.dt - r0.dt)) :
    get_first_critical_points readings = .ok [] := by
  have hrate := get_reading_rate_cons readings r0 r1 h0 h1 hne
  have hnil : pySlice readings (5 * Int.tdiv 60 (r1.dt - r0.dt))
      (readings.length : ℤ) = [] := pySlice_eq_nil_of_le _ _ hlen
  simp [get_first_critical_points, hrate, hnil, enumFrom]

/-- Witness for c7_short_series_empty at seriesShort. -/
theorem c7_short_series_empty_witness :
    pyGet seriesShort 0 = .ok ⟨0, 20⟩ ∧
    pyGet seriesShort 1 = .ok ⟨60, 20⟩ ∧
    ((⟨60, 20⟩ : IRReading).dt - (⟨0, 20⟩ : IRReading).dt ≠ 0) ∧
    ((seriesShort.length : ℤ) ≤
      5 * Int.tdiv 60 ((⟨60, 20⟩ : IRReading).dt - (⟨0, 20⟩ : IRReading).dt)) ∧
    get_first_critical_points seriesShort = .ok [] :=
  ⟨by with_unfolding_all decide, by with_unfolding_all decide,
   by with_unfolding_all decide, by with_unfolding_all decide,
   c7_short_series_empty seriesShort ⟨0, 20⟩ ⟨60, 20⟩
     (by with_unfolding_all decide) (by with_unfolding_all decide)
     (by with_unfolding_all decide) (by with_unfolding_all decide)⟩

lemma mem_enumFrom_get {x : ℕ × α} : ∀ {n : ℕ} {l : List α},
    x ∈ enumFrom n l →
    ∃ j, ∃ (hj : j < l.length), x.1 = n + j ∧ l.get ⟨j, hj⟩ = x.2
  | n, [], h => by simp [enumFrom] at h
  | n, a :: l, h => by
    simp only [enumFrom] at h
    rcases List.mem_cons.mp h with h | h
    · refine ⟨0, by simp, ?_, ?_⟩
      · simp [h]
      · simp [h]
    · obtain ⟨j, hj, h1, h2⟩ := mem_enumFrom_get h
      refine ⟨j + 1, by simpa using Nat.succ_lt_succ hj, by omega, ?_⟩
      simp only [List.get_eq_getElem, List.getElem_cons_succ]
      simp only [List.get_eq_getElem] at h2
      exact h2

lemma pySlice_get (l : List α) (a b : ℤ) (m : ℕ)
    (hm : m < (pySlice l a b).length) :
    ∃ (hj : pySliceIdx l.length a + m < l.length),
      (pySlice l a b).get ⟨m, hm⟩ = l.get ⟨pySliceIdx l.length a + m, hj⟩ ∧
      pySliceIdx l.length a + m < pySliceIdx l.length b := by
  have hlen : (pySlice l a b).length =
      min (pySliceIdx l.length b) l.length - pySliceIdx l.length a := by
    rw [pySlice, List.length_drop, List.length_take]
  have hj : pySliceIdx l.length a + m < l.length := by omega
  have hje : pySliceIdx l.length a + m < pySliceIdx l.length b := by omega
  refine ⟨hj, ?_, hje⟩
  simp only [pySlice, List.get_eq_getElem, List.getElem_drop, List.getElem_take]

lemma pySliceIdx_natCast (n j : ℕ) : pySliceIdx n (j : ℤ) = min j n := by
  simp [pySliceIdx]

/-- C9.  For a well-formed series (two or more readings at a constant
positive spacing) in which no reading qualifies as critical — no reading
has a strictly earlier reading with rise >= RISE_CRITICAL and slope
> M_CRITICAL — both detector entry points return the empty sequence and
raise no exception: the empty result, not a failure, represents the
expected no-critical-point outcome. -/
theorem c9_total_no_exception (readings : List IRReading) (d : ℤ)
    (hlen : 2 ≤ readings.length)
    (huni : readings.Chain' (fun a b => b.dt - a.dt = d)) (hd : 1 ≤ d)
    (hnone : ∀ r ∈ readings, ∀ p ∈ readings, p.dt < r.dt →
      ¬(RISE_CRITICAL ≤ get_rise r p ∧ M_CRITICAL < get_slope r p)) :
    get_first_critical_points readings = .ok [] ∧
    get_critical_points readings = .ok [] := by
  obtain ⟨a, b, rest, rfl⟩ : ∃ a b rest, readings = a :: b :: rest := by
    match readings, hlen with
    | a :: b :: rest, _ => exact ⟨a, b, rest, rfl⟩
  have hdiff : b.dt - a.dt = d := (List.chain'_cons.mp huni).1
  have hne : b.dt - a.dt ≠ 0 := by omega
  have hrate := get_reading_rate_cons (a :: b :: rest) a b
    (pyGet_cons_zero a (b :: rest)) (pyGet_cons_cons_one a b rest) hne
  haveI : IsTrans IRReading (fun x y => x.dt < y.dt) :=
    ⟨fun x y z hxy hyz => lt_trans hxy hyz⟩
  have hpw : (a :: b :: rest).Pairwise (fun x y => x.dt < y.dt) :=
    List.chain'_iff_pairwise.mp (huni.imp (fun hab => by omega))
  have hget_lt := List.pairwise_iff_get.mp hpw
  have hany : ∀ (kr : ℕ × IRReading),
      kr ∈ enumFrom 0 (pySlice (a :: b :: rest)
        (5 * Int.tdiv 60 (b.dt - a.dt)) ((a :: b :: rest).length : ℤ)) →
      (pySlice (a :: b :: rest) ((kr.1 : ℤ) - 5 * Int.tdiv 60 (b.dt - a.dt))
        (kr.1 : ℤ)).any (fun p => isCriticalPair kr.2 p) = false := by
    intro kr hkr
    rw [List.any_eq_false]
    intro p hp hpair
    rw [isCriticalPair_eq_true_iff] at hpair
    obtain ⟨jk, hjk, hk1, hk2⟩ := mem_enumFrom_get hkr
    obtain ⟨hjr, hr_eq, hjr_lt⟩ := pySlice_get _ _ _ jk hjk
    obtain ⟨⟨m, hm⟩, hpm⟩ := List.mem_iff_get.mp hp
    obtain ⟨hjp, hp_eq, hjp_lt⟩ := pySlice_get _ _ _ m hm
    have hkr1 : kr.1 = jk := by omega
    have hbk : pySliceIdx (a :: b :: rest).length ((kr.1 : ℕ) : ℤ) =
        min kr.1 (a :: b :: rest).length := pySliceIdx_natCast _ _
    have hplt : pySliceIdx (a :: b :: rest).length
          ((kr.1 : ℤ) - 5 * Int.tdiv 60 (b.dt - a.dt)) + m <
        pySliceIdx (a :: b :: rest).length
          (5 * Int.tdiv 60 (b.dt - a.dt)) + jk := by
      rw [hbk] at hjp_lt
      omega
    have hr2 : kr.2 = (a :: b :: rest).get ⟨pySliceIdx (a :: b :: rest).length
        (5 * Int.tdiv 60 (b.dt - a.dt)) + jk, hjr⟩ := by
      rw [← hk2, hr_eq]
    have hp2 : p = (a :: b :: rest).get ⟨pySliceIdx (a :: b :: rest).length
        ((kr.1 : ℤ) - 5 * Int.tdiv 60 (b.dt - a.dt)) + m, hjp⟩ := by
      rw [← hpm, hp_eq]
    have hdtlt : p.dt < kr.2.dt := by
      rw [hr2, hp2]
      exact hget_lt _ _ hplt
    refine hnone kr.2 ?_ p ?_ hdtlt hpair
    · rw [hr2]
      exact List.get_mem _ _ _
    · rw [hp2]
      exact List.get_mem _ _ _
  constructor
  · simp only [get_first_critical_points, hrate, ok_bind]
    congr 1
    apply foldl_fixed
    intro acc' kr hkr
    simp [hany kr hkr]
  · simp only [get_critical_points, hrate, ok_bind]
    congr 1
    apply foldl_fixed
    intro acc' kr hkr
    simp [hany kr hkr]

/-- Witness for c9_total_no_exception at the strictly falling seriesFalling
with spacing 60: every temporally ordered pair has a negative rise, and
both detectors return the empty sequence. -/
theorem c9_total_no_exception_witness :
    seriesFalling.Chain' (fun a b => b.dt - a.dt = 60) ∧
    (∀ r ∈ seriesFalling, ∀ p ∈ seriesFalling, p.dt < r.dt →
      ¬(RISE_CRITICAL ≤ get_rise r p ∧ M_CRITICAL < get_slope r p)) ∧
    get_first_critical_points seriesFalling = .ok [] ∧
    get_critical_points seriesFalling = .ok [] :=
  ⟨by simp [seriesFalling, hourlySeries, enumFrom, List.chain'_cons],
   by with_unfolding_all decide,
   c9_total_no_exception seriesFalling 60 (by decide)
     (by simp [seriesFalling, hourlySeries, enumFrom, List.chain'_cons])
     (by decide)
     (by with_unfolding_all decide)⟩

/-- C8, counterexample: on seriesBelowFloor (all heights under the river
baseline) the short-circuited scan returns nothing while the scan without
the short-circuit flags the 21 ft reading, so the optimization does change
the result in general. -/
theorem c8_skip_counterexample :
    get_critical_points seriesBelowFloor = .ok [] ∧
    get_critical_points_no_skip seriesBelowFloor = .ok [⟨600, 21⟩] ∧
    get_critical_points seriesBelowFloor ≠ get_critical_points_no_skip seriesBelowFloor := by
  with_unfolding_all decide

/-- C8, amended: when every reading is at or above RIVER_MIN_HEIGHT, the
baseline-height short-circuit never changes the sequence of critical
points, because any qualifying reading then sits at least RISE_CRITICAL
above the floor. -/
theorem c8_skip_equivalence (readings : List IRReading)
    (hfloor : ∀ r ∈ readings, RIVER_MIN_HEIGHT ≤ r.height) :
    get_critical_points readings = get_critical_points_no_skip readings := by
  cases hrate : get_reading_rate readings with
  | error e => simp [get_critical_points, get_critical_points_no_skip, hrate]
  | ok rate =>
    simp only [get_critical_points, get_critical_points_no_skip, hrate, ok_bind]
    congr 1
    apply List.foldl_ext
    intro acc kr hkr
    by_cases hh : kr.2.height < RIVER_MIN_HEIGHT + RISE_CRITICAL
    · have hany : (pySlice readings ((kr.1 : ℤ) - 5 * rate) (kr.1 : ℤ)).any
          (fun p => isCriticalPair kr.2 p) = false := by
        rw [List.any_eq_false]
        intro p hp hpair
        rw [isCriticalPair_eq_true_iff] at hpair
        have hpf := hfloor p (mem_of_mem_pySlice hp)
        have hrise := hpair.1
        rw [get_rise] at hrise
        rw [RISE_CRITICAL] at *
        rw [RIVER_MIN_HEIGHT] at *
        linarith
      simp [hh, hany]
    · simp [hh]

/-- Witness for c8_skip_equivalence at seriesFlatBase. -/
theorem c8_skip_equivalence_witness :
    (∀ r ∈ seriesFlatBase, RIVER_MIN_HEIGHT ≤ r.height) ∧
    get_critical_points seriesFlatBase = get_critical_points_no_skip seriesFlatBase :=
  ⟨by with_unfolding_all decide,
   c8_skip_equivalence seriesFlatBase (by with_unfolding_all decide)⟩

lemma mem_foldl_of_step {f : List IRReading → (ℕ × IRReading) → List IRReading}
    (hf : ∀ acc kr x, x ∈ f acc kr → x ∈ acc ∨ x = kr.2) :
    ∀ (l : List (ℕ × IRReading)) (acc : List IRReading) (x : IRReading),
      x ∈ l.foldl f acc → x ∈ acc ∨ ∃ kr ∈ l, x = kr.2
  | [], _, _, hx => Or.inl hx
  | kr :: l, acc, x, hx => by
    rcases mem_foldl_of_step hf l (f acc kr) x hx with h | ⟨kr', hkr', rfl⟩
    · rcases hf acc kr x h with h | h
      · exact Or.inl h
      · exact Or.inr ⟨kr, List.mem_cons_self kr l, h⟩
    · exact Or.inr ⟨kr', List.mem_cons_of_mem kr hkr', rfl⟩

lemma pyIndex_of_mem [DecidableEq α] {a : α} : ∀ {l : List α},
    a ∈ l → ∃ i, pyIndex l a = .ok i
  | [], h => by simp at h
  | x :: xs, h => by
    by_cases hx : x = a
    · exact ⟨0, by simp [pyIndex, hx]⟩
    · have hmem : a ∈ xs := by
        rcases List.mem_cons.mp h with h | h
        · exact absurd h.symm hx
        · exact h
      obtain ⟨i, hi⟩ := pyIndex_of_mem hmem
      exact ⟨i + 1, by simp [pyIndex, hx, hi, Except.map]⟩

/-- C10.  Every reading returned by first-critical-point detection is an
element of the input series, and the 48-hour window extraction that looks
the anchor up by membership in the same series succeeds (no not-found
error): list.index finds an index and slicing is total. -/
theorem c10_fcp_membership (readings fcps : List IRReading)
    (h : get_first_critical_points readings = .ok fcps) :
    ∀ fcp ∈ fcps, fcp ∈ readings ∧
      ∃ w, get_48hr_readings fcp readings = .ok w := by
  cases hrate : get_reading_rate readings with
  | error e =>
    rw [get_first_critical_points, hrate, error_bind] at h
    exact absurd h (by simp)
  | ok rate =>
    rw [get_first_critical_points, hrate, ok_bind] at h
    have h' : Except.ok ((enumFrom 0 (pySlice readings (5 * rate) (readings.length : ℤ))).foldl
        (fun acc kr =>
          if (pySlice readings ((kr.1 : ℤ) - 5 * rate) (kr.1 : ℤ)).any
              (fun p => isCriticalPair kr.2 p) = true then
            match acc.getLast? with
            | none => acc ++ [kr.2]
            | some last => if debounceAccept last kr.2 = true then acc ++ [kr.2] else acc
          else acc) []) = (Except.ok fcps : Except PyErr (List IRReading)) := h
    have hinj : (enumFrom 0 (pySlice readings (5 * rate) (readings.length : ℤ))).foldl
        (fun acc kr =>
          if (pySlice readings ((kr.1 : ℤ) - 5 * rate) (kr.1 : ℤ)).any
              (fun p => isCriticalPair kr.2 p) = true then
            match acc.getLast? with
            | none => acc ++ [kr.2]
            | some last => if debounceAccept last kr.2 = true then acc ++ [kr.2] else acc
          else acc) [] = fcps := by
      injection h'
    intro fcp hm
    rw [← hinj] at hm
    have hstep : ∀ (acc : List IRReading) (kr : ℕ × IRReading) (x : IRReading),
        x ∈ (if (pySlice readings ((kr.1 : ℤ) - 5 * rate) (kr.1 : ℤ)).any
              (fun p => isCriticalPair kr.2 p) = true then
            match acc.getLast? with
            | none => acc ++ [kr.2]
            | some last => if debounceAccept last kr.2 = true then acc ++ [kr.2] else acc
          else acc) → x ∈ acc ∨ x = kr.2 := by
      intro acc kr x hx
      by_cases hc : (pySlice readings ((kr.1 : ℤ) - 5 * rate) (kr.1 : ℤ)).any
          (fun p => isCriticalPair kr.2 p) = true
      · rw [if_pos hc] at hx
        rcases hl : acc.getLast? with _ | last <;> rw [hl] at hx
        · have hx' : x ∈ acc ++ [kr.2] := hx
          rcases List.mem_append.mp hx' with h | h
          · exact Or.inl h
          · exact Or.inr (List.mem_singleton.mp h)
        · have hx' : x ∈ if debounceAccept last kr.2 = true then acc ++ [kr.2] else acc := hx
          by_cases hd : debounceAccept last kr.2 = true
          · rw [if_pos hd] at hx'
            rcases List.mem_append.mp hx' with h | h
            · exact Or.inl h
            · exact Or.inr (List.mem_singleton.mp h)
          · rw [if_neg hd] at hx'
            exact Or.inl hx'
      · rw [if_neg hc] at hx
        exact Or.inl hx
    rcases mem_foldl_of_step hstep _ [] fcp hm with hfalse | ⟨kr, hkr, rfl⟩
    · simp at hfalse
    · have hmem : kr.2 ∈ readings :=
        mem_of_mem_pySlice (mem_of_mem_enumFrom hkr)
      obtain ⟨i, hi⟩ := pyIndex_of_mem hmem
      refine ⟨hmem, pySlice readings ((i : ℤ) - 24 * rate) ((i : ℤ) + 24 * rate), ?_⟩
      rw [get_48hr_readings, hrate, ok_bind, hi, ok_bind]
      rfl

/-- Witness for c10_fcp_membership at seriesSpikeAtTen. -/
theorem c10_fcp_membership_witness :
    get_first_critical_points seriesSpikeAtTen = .ok [⟨600, 47/2⟩] ∧
    (⟨600, 47/2⟩ : IRReading) ∈ seriesSpikeAtTen ∧
    ∃ w, get_48hr_readings ⟨600, 47/2⟩ seriesSpikeAtTen = .ok w := by
  have happ := c10_fcp_membership seriesSpikeAtTen [⟨600, 47/2⟩]
    (by with_unfolding_all decide) ⟨600, 47/2⟩ (List.mem_singleton.mpr rfl)
  exact ⟨by with_unfolding_all decide, happ.1, happ.2⟩

/-- C2, counterexample: in seriesTwoSpikes the reading at index 90 (minute
1350) qualifies in its scanned slice and is 750 minutes — more than 12
hours — after the only accepted point (minute 600), yet it is not accepted:
the code tests (Δseconds) // 3600 > 12, which requires at least 13 whole
hours. -/
theorem c2_debounce_counterexample :
    get_first_critical_points seriesTwoSpikes = .ok [⟨600, 23⟩] ∧
    (pySlice seriesTwoSpikes 50 70).any (fun p => isCriticalPair ⟨1350, 23⟩ p) = true ∧
    (720 : ℤ) < (⟨1350, 23⟩ : IRReading).dt - (⟨600, 23⟩ : IRReading).dt := by
  with_unfolding_all decide

lemma foldl_append_filterMap (cond : ℕ × IRReading → Bool) :
    ∀ (l : List (ℕ × IRReading)) (acc : List IRReading),
      l.foldl (fun cs kr => if cond kr then cs ++ [kr.2] else cs) acc =
        acc ++ l.filterMap (fun kr => if cond kr then some kr.2 else none)
  | [], acc => by simp
  | kr :: l, acc => by
    cases hcond : cond kr with
    | true =>
      simp only [List.foldl_cons, List.filterMap_cons, hcond, if_true]
      rw [foldl_append_filterMap cond l (acc ++ [kr.2])]
      simp
    | false =>
      simp only [List.foldl_cons, List.filterMap_cons, hcond, Bool.false_eq_true,
        if_false]
      exact foldl_append_filterMap cond l acc

lemma inline_debounce_decompose (cond : ℕ × IRReading → Bool) :
    ∀ (l : List (ℕ × IRReading)) (acc : List IRReading),
      l.foldl (fun acc kr =>
        if cond kr then
          match acc.getLast? with
          | none => acc ++ [kr.2]
          | some last => if debounceAccept last kr.2 then acc ++ [kr.2] else acc
        else acc) acc =
      (l.filterMap (fun kr => if cond kr then some kr.2 else none)).foldl
        (fun acc r =>
          match acc.getLast? with
          | none => acc ++ [r]
          | some last => if debounceAccept last r then acc ++ [r] else acc) acc
  | [], acc => by simp
  | kr :: l, acc => by
    cases hcond : cond kr with
    | true =>
      simp only [List.foldl_cons, List.filterMap_cons, hcond, if_true]
      exact inline_debounce_decompose cond l _
    | false =>
      simp only [List.foldl_cons, List.filterMap_cons, hcond, Bool.false_eq_true,
        if_false]
      exact inline_debounce_decompose cond l acc

/-- C2, amended: the detector equals the debounce walk applied to the full
sequence of qualifying scan points, where the walk accepts a point exactly
when none has been accepted yet or when the floor of the elapsed hours
since the previously accepted point exceeds 12 — that is, when the point
is at least 13 whole hours (780 minutes) later, not merely more than 12
hours. -/
theorem c2_debounce_threshold (readings : List IRReading) (rate : ℤ)
    (hrate : get_reading_rate readings = .ok rate) :
    get_first_critical_points readings =
      .ok (debouncePass (critical_candidates readings (5 * rate))) ∧
    ∀ last r : IRReading, debounceAccept last r = decide (780 ≤ r.dt - last.dt) := by
  constructor
  · rw [get_first_critical_points, hrate, ok_bind]
    have hcand : critical_candidates readings (5 * rate) =
        (enumFrom 0 (pySlice readings (5 * rate) (readings.length : ℤ))).filterMap
          (fun kr => if (pySlice readings ((kr.1 : ℤ) - 5 * rate) (kr.1 : ℤ)).any
              (fun p => isCriticalPair kr.2 p) then some kr.2 else none) := by
      rw [critical_candidates]
      rw [foldl_append_filterMap (fun kr =>
        (pySlice readings ((kr.1 : ℤ) - 5 * rate) (kr.1 : ℤ)).any
          (fun p => isCriticalPair kr.2 p))]
      simp
    show Except.ok _ = _
    rw [hcand, debouncePass]
    rw [inline_debounce_decompose (fun kr =>
      (pySlice readings ((kr.1 : ℤ) - 5 * rate) (kr.1 : ℤ)).any
        (fun p => isCriticalPair kr.2 p))]
  · intro last r
    rw [debounceAccept]
    rw [Int.fdiv_eq_ediv _ (by norm_num)]
    congr 1
    rw [eq_iff_iff]
    omega

/-- Witness for c2_debounce_threshold at seriesTwoSpikes. -/
theorem c2_debounce_threshold_witness :
    get_reading_rate seriesTwoSpikes = .ok 4 ∧
    get_first_critical_points seriesTwoSpikes =
      .ok (debouncePass (critical_candidates seriesTwoSpikes (5 * 4))) ∧
    debouncePass (critical_candidates seriesTwoSpikes (5 * 4)) = [⟨600, 23⟩] ∧
    critical_candidates seriesTwoSpikes (5 * 4) = [⟨600, 23⟩, ⟨1350, 23⟩] :=
  ⟨by with_unfolding_all decide,
   (c2_debounce_threshold seriesTwoSpikes 4 (by with_unfolding_all decide)).1,
   by with_unfolding_all decide, by with_unfolding_all decide⟩

lemma get_relevant_slide_eq_find (rs : List IRReading) (r0 rl : IRReading)
    (hf : pyGet rs 0 = .ok r0) (hl : pyGet rs (-1) = .ok rl) :
    ∀ (known_slides : List SlideEvent),
      get_relevant_slide rs known_slides =
        .ok (known_slides.find?
          (fun t => decide (r0.dt ≤ t.dtSlide ∧ t.dtSlide ≤ rl.dt)))
  | [] => by simp [get_relevant_slide]
  | s :: rest => by
    rw [get_relevant_slide, hf, ok_bind, hl, ok_bind, List.find?]
    by_cases hin : r0.dt ≤ s.dtSlide ∧ s.dtSlide ≤ rl.dt
    · rw [if_pos hin, decide_eq_true hin]
      rfl
    · rw [if_neg hin, decide_eq_false hin]
      exact get_relevant_slide_eq_find rs r0 rl hf hl rest

lemma find?_of_filter_singleton {α} (p : α → Bool) : ∀ (l : List α) (s : α),
    l.filter p = [s] → l.find? p = some s
  | [], s, h => by simp at h
  | x :: xs, s, h => by
    cases hp : p x with
    | true =>
      rw [List.filter_cons_of_pos hp] at h
      have hx := (List.cons.injEq x (xs.filter p) s []).mp h
      rw [List.find?_cons_of_pos _ hp, hx.1]
    | false =>
      rw [List.filter_cons_of_neg (by simp [hp])] at h
      rw [List.find?_cons_of_neg _ (by simp [hp])]
      exact find?_of_filter_singleton p xs s h

lemma find?_of_filter_nil {α} (p : α → Bool) (l : List α)
    (h : l.filter p = []) : l.find? p = none := by
  rw [List.find?_eq_none]
  intro x hx
  intro hpx
  have := List.mem_filter.mpr ⟨hx, hpx⟩
  rw [h] at this
  simp at this

/-- C4, amended: per 48-hour window classification (the critical-set loop
body of get_reading_sets), given that the re-scan of the window finds at
least one critical point c.  When exactly one known slide lies between the
window's first and last readings, the loop records it as a true positive
with lead time slide minus c in whole minutes (possibly negative); when no
known slide lies in the window, it records c as a false positive.  Without
a critical point from the re-scan the code instead raises IndexError, as
c4_classification_counterexample shows. -/
theorem c4_window_classification (known_slides sir : List SlideEvent)
    (stats : Stats) (rs : List IRReading) (c : IRReading) (cs : List IRReading)
    (r0 rl : IRReading)
    (hc : get_critical_points rs = .ok (c :: cs))
    (hf : pyGet rs 0 = .ok r0) (hl : pyGet rs (-1) = .ok rl) :
    (∀ s sir',
      known_slides.filter (fun t => decide (r0.dt ≤ t.dtSlide ∧ t.dtSlide ≤ rl.dt)) = [s] →
      pyRemove sir s = .ok sir' →
      process_critical_set known_slides (sir, stats) rs = .ok (sir',
        { stats with
            relevantSlides := stats.relevantSlides ++ [s],
            associatedNotifications := stats.associatedNotifications + 1,
            notificationTimes := stats.notificationTimes ++ [(s, s.dtSlide - c.dt)] })) ∧
    (known_slides.filter (fun t => decide (r0.dt ≤ t.dtSlide ∧ t.dtSlide ≤ rl.dt)) = [] →
      process_critical_set known_slides (sir, stats) rs = .ok (sir,
        { stats with
            unassociatedNotificationPoints := stats.unassociatedNotificationPoints ++ [c],
            unassociatedNotifications := stats.unassociatedNotifications + 1 })) := by
  have hrel := get_relevant_slide_eq_find rs r0 rl hf hl known_slides
  constructor
  · intro s sir' hone hrem
    rw [process_critical_set, hc, ok_bind, hrel, ok_bind,
      find?_of_filter_singleton _ known_slides s hone]
    simp only [get_notification_time, pyGet_cons_zero, ok_bind, hrem]
    rfl
  · intro hnone
    rw [process_critical_set, hc, ok_bind, hrel, ok_bind,
      find?_of_filter_nil _ known_slides hnone]
    simp only [pyGet_cons_zero, ok_bind]
    rfl

/-- C4, counterexample: seriesLowSpike yields a first critical point at
22.5 ft, the window around it is re-scanned with the baseline-height
short-circuit (22.5 < RIVER_MIN_HEIGHT + RISE_CRITICAL), the re-scan finds
no critical points, and the classification loop then raises IndexError on
critical_points[0] instead of emitting a FalsePositive. -/
theorem c4_classification_counterexample :
    get_first_critical_points seriesLowSpike = .ok [⟨1800, 45/2⟩] ∧
    get_reading_sets seriesLowSpike [] stats0 = .error .indexError := by
  with_unfolding_all decide

/-- Witness for c4_window_classification at windowLongSpike: one slide in
the window gives a true positive with negative lead time 1000 - 1800; no
slide gives a false positive for the window's first critical point. -/
theorem c4_window_classification_witness :
    process_critical_set [slideMid] ([slideMid], stats0) windowLongSpike =
      .ok ([], { stats0 with
          relevantSlides := [slideMid],
          associatedNotifications := 1,
          notificationTimes := [(slideMid, -800)] }) ∧
    process_critical_set [] ([], stats0) windowLongSpike =
      .ok ([], { stats0 with
          unassociatedNotificationPoints := [⟨1800, 47/2⟩],
          unassociatedNotifications := 1 }) := by
  constructor
  · have h := (c4_window_classification [slideMid] [slideMid] stats0 windowLongSpike
      ⟨1800, 47/2⟩ [] ⟨360, 20⟩ ⟨2340, 20⟩
      (by with_unfolding_all decide) (by with_unfolding_all decide)
      (by with_unfolding_all decide)).1 slideMid []
      (by with_unfolding_all decide) (by with_unfolding_all decide)
    exact h.trans (by with_unfolding_all decide)
  · have h := (c4_window_classification [] [] stats0 windowLongSpike
      ⟨1800, 47/2⟩ [] ⟨360, 20⟩ ⟨2340, 20⟩
      (by with_unfolding_all decide) (by with_unfolding_all decide)
      (by with_unfolding_all decide)).2 (by with_unfolding_all decide)
    exact h.trans (by with_unfolding_all decide)

/-- C5, counterexample: in longSpikeRun the slide at minute 90 lies between
the first (minute 0) and last (minute 2340) readings of the processed
series, is claimed by no window, and yet is reported as outside the
analyzed range rather than as a false negative: summarize_results
recomputes earliest/latest from the extracted reading windows (earliest
minute 360), not from the processed series. -/
theorem c5_scope_counterexample :
    longSpikeRun = .ok
      ({ stats0 with
          earliest := some ⟨360, 20⟩,
          latest := some ⟨2340, 20⟩,
          notificationsIssued := 1,
          unassociatedNotifications := 1,
          unassociatedNotificationPoints := [⟨1800, 47/2⟩],
          unassociatedSlides := [] }, [slideEarly]) ∧
    pyGet seriesLongSpike 0 = .ok ⟨0, 20⟩ ∧
    pyGet seriesLongSpike (-1) = .ok ⟨2340, 20⟩ ∧
    (0 : ℤ) ≤ slideEarly.dtSlide ∧ slideEarly.dtSlide ≤ 2340 := by
  with_unfolding_all decide

lemma pyRemove_eq_erase [DecidableEq α] {a : α} : ∀ {l : List α},
    a ∈ l → pyRemove l a = .ok (l.erase a)
  | [], h => absurd h (List.not_mem_nil a)
  | x :: xs, h => by
    by_cases hx : x = a
    · subst hx
      rw [pyRemove, if_pos rfl, List.erase_cons_head]
    · have hmem : a ∈ xs := by
        rcases List.mem_cons.mp h with h | h
        · exact absurd h.symm hx
        · exact h
      rw [pyRemove, if_neg hx, pyRemove_eq_erase hmem,
        List.erase_cons_tail (by simp [hx])]
      rfl

lemma filter_erase_of_neg [DecidableEq α] (p : α → Bool) {a : α}
    (hpa : p a = false) : ∀ (l : List α), (l.erase a).filter p = l.filter p
  | [] => rfl
  | x :: xs => by
    by_cases hx : x = a
    · subst hx
      rw [List.erase_cons_head, List.filter_cons_of_neg (by simp [hpa])]
    · rw [List.erase_cons_tail (by simp [hx])]
      cases hp : p x with
      | true =>
        rw [List.filter_cons_of_pos hp, List.filter_cons_of_pos hp,
          filter_erase_of_neg p hpa xs]
      | false =>
        rw [List.filter_cons_of_neg (by simp [hp]),
          List.filter_cons_of_neg (by simp [hp]), filter_erase_of_neg p hpa xs]

lemma c5_remove_fold (e l : IRReading) :
    ∀ (ks ul out : List SlideEvent),
    ks.Nodup → ul.Nodup →
    (∀ s ∈ ks, (s.dtSlide < e.dt ∨ l.dt < s.dtSlide) → s ∈ ul) →
    (∀ s ∈ ul, (s.dtSlide < e.dt ∨ l.dt < s.dtSlide) → s ∈ ks) →
    ks.foldlM
      (fun (st : List SlideEvent × List SlideEvent) slide =>
        if slide.dtSlide < e.dt ∨ l.dt < slide.dtSlide then do
          let ul' ← pyRemove st.1 slide
          return (ul', st.2 ++ [slide])
        else return st)
      (ul, out) =
    (.ok (ul.filter (fun s => !(decide (s.dtSlide < e.dt ∨ l.dt < s.dtSlide))),
         out ++ ks.filter (fun s => decide (s.dtSlide < e.dt ∨ l.dt < s.dtSlide)))
      : Except PyErr (List SlideEvent × List SlideEvent))
  | [], ul, out, _, _, _, h2 => by
    have hfix : ul.filter (fun s => !(decide (s.dtSlide < e.dt ∨ l.dt < s.dtSlide))) = ul := by
      rw [List.filter_eq_self]
      intro s hs
      have := h2 s hs
      simp only [List.not_mem_nil] at this
      simp only [Bool.not_eq_true', decide_eq_false_iff_not]
      intro hp
      exact (this hp).elim
    show Except.ok (ul, out) = _
    rw [List.filter_nil, List.append_nil, hfix]
  | k :: ks, ul, out, hknd, hulnd, h1, h2 => by
    rw [List.foldlM_cons]
    by_cases hk : k.dtSlide < e.dt ∨ l.dt < k.dtSlide
    · have hkul : k ∈ ul := h1 k (List.mem_cons_self k ks) hk
      rw [if_pos hk, pyRemove_eq_erase hkul]
      simp only [ok_bind, except_pure_bind]
      have hrec := c5_remove_fold e l ks (ul.erase k) (out ++ [k])
        (List.Nodup.of_cons hknd) (hulnd.erase k)
        (by
          intro s hs hp
          have hne : s ≠ k := by
            intro hcon
            subst hcon
            exact (List.nodup_cons.mp hknd).1 hs
          exact (List.mem_erase_of_ne hne).mpr (h1 s (List.mem_cons_of_mem k hs) hp))
        (by
          intro s hs hp
          have hsul : s ∈ ul := List.mem_of_mem_erase hs
          rcases List.mem_cons.mp (h2 s hsul hp) with hcon | hok
          · subst hcon
            exact absurd hs (hulnd.not_mem_erase)
          · exact hok)
      rw [hrec]
      rw [filter_erase_of_neg _ (by simp [hk]) ul]
      rw [List.filter_cons_of_pos (by simp [hk]), List.append_assoc]
      rfl
    · rw [if_neg hk]
      simp only [except_pure_bind]
      have hrec := c5_remove_fold e l ks ul out
        (List.Nodup.of_cons hknd) hulnd
        (fun s hs hp => h1 s (List.mem_cons_of_mem k hs) hp)
        (by
          intro s hs hp
          rcases List.mem_cons.mp (h2 s hs hp) with hcon | hok
          · subst hcon
            exact absurd hp hk
          · exact hok)
      rw [hrec, List.filter_cons_of_neg (by simp [hk])]

/-- C5, amended: summarize_results takes its analyzed range from the
earliest/latest readings across the extracted 48-hour reading windows
(get_earliest_latest_readings over reading_sets), not across the processed
series.  Given that range (e, l), every known slide outside [e.dt, l.dt] is
reported separately as out of range and removed from the false-negative
set, and the false negatives are exactly the known slides that are
unclaimed and within [e.dt, l.dt]. -/
theorem c5_out_of_range_scope (reading_sets : List (List IRReading))
    (known_slides : List SlideEvent) (stats : Stats) (e l : IRReading)
    (hel : get_earliest_latest_readings reading_sets = .ok (e, l))
    (hassert : stats.unassociatedNotifications =
      stats.unassociatedNotificationPoints.length)
    (hnd : known_slides.Nodup)
    (hrel : ∀ s ∈ known_slides, (s.dtSlide < e.dt ∨ l.dt < s.dtSlide) →
      s ∉ stats.relevantSlides) :
    summarize_results reading_sets known_slides stats = .ok
      ({ stats with
          earliest := some e,
          latest := some l,
          unassociatedSlides := (known_slides.filter
              (fun s => !(stats.relevantSlides.contains s))).filter
            (fun s => !(decide (s.dtSlide < e.dt ∨ l.dt < s.dtSlide))) },
        known_slides.filter (fun s => decide (s.dtSlide < e.dt ∨ l.dt < s.dtSlide))) ∧
    (∀ s, s ∈ (known_slides.filter
          (fun s => !(stats.relevantSlides.contains s))).filter
        (fun s => !(decide (s.dtSlide < e.dt ∨ l.dt < s.dtSlide))) ↔
      (s ∈ known_slides ∧ s ∉ stats.relevantSlides ∧
        e.dt ≤ s.dtSlide ∧ s.dtSlide ≤ l.dt)) ∧
    (∀ s, s ∈ known_slides.filter
        (fun s => decide (s.dtSlide < e.dt ∨ l.dt < s.dtSlide)) ↔
      (s ∈ known_slides ∧ (s.dtSlide < e.dt ∨ l.dt < s.dtSlide))) := by
  refine ⟨?_, ?_, ?_⟩
  · simp only [summarize_results, hel, ok_bind]
    rw [if_neg (by simp [hassert])]
    have hfold := c5_remove_fold e l known_slides
      (known_slides.filter (fun s => !(stats.relevantSlides.contains s))) []
      hnd (hnd.filter _)
      (by
        intro s hs hp
        refine List.mem_filter.mpr ⟨hs, ?_⟩
        have := hrel s hs hp
        simpa using this)
      (fun s hs _ => (List.mem_filter.mp hs).1)
    rw [hfold]
    rfl
  · intro s
    simp only [List.mem_filter, Bool.not_eq_true', decide_eq_false_iff_not,
      Bool.and_eq_true]
    constructor
    · rintro ⟨⟨hmem, hc⟩, hrange⟩
      refine ⟨hmem, by simpa using hc, by omega, by omega⟩
    · rintro ⟨hmem, hc, h1, h2⟩
      exact ⟨⟨hmem, by simpa using hc⟩, by omega⟩
  · intro s
    simp [List.mem_filter]

/-- Witness for c5_out_of_range_scope on a two-reading window with one
out-of-range slide. -/
theorem c5_out_of_range_scope_witness :
    summarize_results [[⟨0, 20⟩, ⟨60, 20⟩]] [slideMid] stats0 = .ok
      ({ stats0 with
          earliest := some ⟨0, 20⟩,
          latest := some ⟨60, 20⟩,
          unassociatedSlides := [] }, [slideMid]) := by
  have h := (c5_out_of_range_scope [[⟨0, 20⟩, ⟨60, 20⟩]] [slideMid] stats0
    ⟨0, 20⟩ ⟨60, 20⟩
    (by with_unfolding_all decide) (by decide) (by simp)
    (by
      intro s hs hp
      simp [stats0])).1
  exact h.trans (by with_unfolding_all decide)

lemma minCfStep_ok_char (readings acc : List IRReading) (t : ℤ)
    (out' : List IRReading)
    (hhist : ∀ r ∈ readings, r.dt < t)
    (hacc : ∀ a ∈ acc, t - 300 ≤ a.dt ∧ a.dt < t)
    (hstep : minCfStep readings acc t = .ok out') :
    ∃ w0 wr,
      (readings ++ acc).filter
        (fun r => decide (t - 300 ≤ r.dt ∧ r.dt < t)) = w0 :: wr ∧
      out' = acc ++ [⟨t,
        if (heightsMin (w0 :: wr) + RISE_CRITICAL - w0.height) / 5 < M_CRITICAL
        then 5 * M_CRITICAL + w0.height
        else heightsMin (w0 :: wr) + RISE_CRITICAL⟩] := by
  have hwin : (readings ++ acc).filter
      (fun r => decide (t - 300 ≤ r.dt ∧ r.dt < t)) =
      readings.filter (fun r => decide (t - 300 ≤ r.dt)) ++ acc := by
    rw [List.filter_append]
    congr 1
    · apply List.filter_congr
      intro r hr
      have := hhist r hr
      simp [this]
    · rw [List.filter_eq_self]
      intro a ha
      exact decide_eq_true (hacc a ha)
  rw [minCfStep] at hstep
  cases hrel : readings.filter (fun r => decide (t - 300 ≤ r.dt)) ++ acc with
  | nil =>
    rw [hrel] at hstep
    exact absurd hstep (by simp)
  | cons r0 rest =>
    rw [hrel] at hstep
    have hout : (Except.ok (acc ++ [(⟨t,
        if (heightsMin (r0 :: rest) + RISE_CRITICAL - r0.height) / 5 < M_CRITICAL
        then 5 * M_CRITICAL + r0.height
        else heightsMin (r0 :: rest) + RISE_CRITICAL⟩ : IRReading)])
          : Except PyErr (List IRReading)) = .ok out' := hstep
    refine ⟨r0, rest, by rw [hwin, hrel], ?_⟩
    injection hout with hout
    rw [← hout]

lemma minCf_go (readings : List IRReading) (rl : IRReading)
    (hle : ∀ r ∈ readings, r.dt ≤ rl.dt) :
    ∀ (n k : ℕ) (acc out : List IRReading),
    k + n ≤ 20 →
    acc.length = k →
    (∀ a ∈ acc, rl.dt + 15 ≤ a.dt ∧ a.dt ≤ rl.dt + 15 * (k : ℤ)) →
    ((List.range n).map
      (fun (m : ℕ) => rl.dt + 15 * ((k : ℤ) + (m : ℤ) + 1))).foldlM
      (minCfStep readings) acc = .ok out →
    acc <+: out ∧ out.length = k + n ∧
    (∀ a ∈ out, rl.dt + 15 ≤ a.dt ∧ a.dt ≤ rl.dt + 15 * ((k + n : ℕ) : ℤ)) ∧
    ∀ i (hik : k ≤ i) (hi : i < out.length),
      ∃ w0 wr,
        (readings ++ out.take i).filter
          (fun r => decide (rl.dt + 15 * ((i : ℤ) + 1) - 300 ≤ r.dt ∧
            r.dt < rl.dt + 15 * ((i : ℤ) + 1))) = w0 :: wr ∧
        out.get ⟨i, hi⟩ = ⟨rl.dt + 15 * ((i : ℤ) + 1),
          if (heightsMin (w0 :: wr) + RISE_CRITICAL - w0.height) / 5 < M_CRITICAL
          then 5 * M_CRITICAL + w0.height
          else heightsMin (w0 :: wr) + RISE_CRITICAL⟩
  | 0, k, acc, out, hkn, hlen, hbounds, hrun => by
    have hout : acc = out := by
      simp only [List.range_zero, List.map_nil, List.foldlM_nil] at hrun
      injection hrun
    subst hout
    refine ⟨List.prefix_refl acc, by omega, ?_, ?_⟩
    · intro a ha
      have := hbounds a ha
      constructor
      · exact this.1
      · have : a.dt ≤ rl.dt + 15 * (k : ℤ) := this.2
        have hc : ((k + 0 : ℕ) : ℤ) = (k : ℤ) := by push_cast; ring
        rw [hc]
        exact this
    · intro i hik hi
      rw [hlen] at hi
      omega
  | n + 1, k, acc, out, hkn, hlen, hbounds, hrun => by
    have hts : ((List.range (n + 1)).map
        (fun (m : ℕ) => rl.dt + 15 * ((k : ℤ) + (m : ℤ) + 1))) =
        (rl.dt + 15 * ((k : ℤ) + 1)) ::
          ((List.range n).map
            (fun (m : ℕ) => rl.dt + 15 * (((k + 1 : ℕ) : ℤ) + (m : ℤ) + 1))) := by
      rw [List.range_succ_eq_map, List.map_cons, List.map_map]
      refine congrArg₂ _ (by push_cast; ring) ?_
      apply List.map_congr_left
      intro m hm
      simp only [Function.comp_apply]
      push_cast
      ring
    rw [hts, List.foldlM_cons] at hrun
    cases hstep : minCfStep readings acc (rl.dt + 15 * ((k : ℤ) + 1)) with
    | error e =>
      rw [hstep, error_bind] at hrun
      exact absurd hrun (by simp)
    | ok mid =>
      rw [hstep, ok_bind] at hrun
      have hk19 : (k : ℤ) ≤ 19 := by exact_mod_cast (by omega : k ≤ 19)
      have hchar := minCfStep_ok_char readings acc (rl.dt + 15 * ((k : ℤ) + 1)) mid
        (by
          intro r hr
          have hrle := hle r hr
          have hk0 : (0 : ℤ) ≤ (k : ℤ) := Int.ofNat_nonneg k
          omega)
        (by
          intro a ha
          have hb := hbounds a ha
          obtain ⟨hb1, hb2⟩ := hb
          constructor
          · omega
          · omega)
        hstep
      obtain ⟨w0, wr, hwin, hmid⟩ := hchar
      have hmidlen : mid.length = k + 1 := by
        rw [hmid, List.length_append, hlen]
        rfl
      have hmb : ∀ a ∈ mid, rl.dt + 15 ≤ a.dt ∧
          a.dt ≤ rl.dt + 15 * ((k + 1 : ℕ) : ℤ) := by
        intro a ha
        rw [hmid] at ha
        rcases List.mem_append.mp ha with ha | ha
        · obtain ⟨hb1, hb2⟩ := hbounds a ha
          have hc : ((k + 1 : ℕ) : ℤ) = (k : ℤ) + 1 := by push_cast; ring
          rw [hc]
          constructor
          · exact hb1
          · omega
        · have hdt := congrArg IRReading.dt (List.mem_singleton.mp ha)
          simp only at hdt
          have hc : ((k + 1 : ℕ) : ℤ) = (k : ℤ) + 1 := by push_cast; ring
          rw [hdt, hc]
          have hk0 : (0 : ℤ) ≤ (k : ℤ) := Int.ofNat_nonneg k
          omega
      have hrec := minCf_go readings rl hle n (k + 1) mid out (by omega)
        hmidlen hmb hrun
      obtain ⟨hpre, hlen', hbnd', hidx⟩ := hrec
      refine ⟨?_, by omega, ?_, ?_⟩
      · have hap : acc <+: mid := by
          rw [hmid]
          exact List.prefix_append acc _
        exact hap.trans hpre
      · intro a ha
        obtain ⟨hb1, hb2⟩ := hbnd' a ha
        have hc : (((k + 1) + n : ℕ) : ℤ) = ((k + (n + 1) : ℕ) : ℤ) := by
          push_cast
          ring
        rw [hc] at hb2
        exact ⟨hb1, hb2⟩
      · intro i hik hi
        rcases Nat.lt_or_ge i (k + 1) with hik1 | hik1
        · have hieq : i = k := by omega
          subst hieq
          obtain ⟨tl, htl⟩ := hpre
          subst htl
          have htake : ((mid ++ tl).take i : List IRReading) = acc := by
            rw [hmid, List.append_assoc, ← hlen]
            exact List.take_left acc _
          have hilt : i < mid.length := by omega
          have hmidget : mid.get ⟨i, hilt⟩ = (⟨rl.dt + 15 * ((i : ℤ) + 1),
              if (heightsMin (w0 :: wr) + RISE_CRITICAL - w0.height) / 5 < M_CRITICAL
              then 5 * M_CRITICAL + w0.height
              else heightsMin (w0 :: wr) + RISE_CRITICAL⟩ : IRReading) := by
            simp only [List.get_eq_getElem, hmid]
            have hia : i = acc.length := hlen.symm
            rw [List.getElem_concat_length acc _ i hia]
          have hget : (mid ++ tl).get ⟨i, hi⟩ = (⟨rl.dt + 15 * ((i : ℤ) + 1),
              if (heightsMin (w0 :: wr) + RISE_CRITICAL - w0.height) / 5 < M_CRITICAL
              then 5 * M_CRITICAL + w0.height
              else heightsMin (w0 :: wr) + RISE_CRITICAL⟩ : IRReading) := by
            rw [List.get_eq_getElem, List.getElem_append_left hilt]
            simp only [List.get_eq_getElem] at hmidget
            exact hmidget
          refine ⟨w0, wr, ?_, hget⟩
          rw [htake]
          exact hwin
        · exact hidx i hik1 hi

lemma minCritPrevStep_ok_char (readings acc : List IRReading) (t : ℤ)
    (out' : List IRReading)
    (hstep : minCritPrevStep readings acc t = .ok out') :
    ∃ w0 wr,
      readings.filter (fun r => decide (t - 300 ≤ r.dt ∧ r.dt < t)) = w0 :: wr ∧
      out' = acc ++ [⟨t,
        if (heightsMin (w0 :: wr) + RISE_CRITICAL - w0.height) / 5 < M_CRITICAL
        then 5 * M_CRITICAL + w0.height
        else heightsMin (w0 :: wr) + RISE_CRITICAL⟩] := by
  rw [minCritPrevStep] at hstep
  cases hrel : readings.filter (fun r => decide (t - 300 ≤ r.dt ∧ r.dt < t)) with
  | nil =>
    rw [hrel] at hstep
    exact absurd hstep (by simp)
  | cons r0 rest =>
    rw [hrel] at hstep
    have hout : (Except.ok (acc ++ [(⟨t,
        if (heightsMin (r0 :: rest) + RISE_CRITICAL - r0.height) / 5 < M_CRITICAL
        then 5 * M_CRITICAL + r0.height
        else heightsMin (r0 :: rest) + RISE_CRITICAL⟩ : IRReading)])
          : Except PyErr (List IRReading)) = .ok out' := hstep
    refine ⟨r0, rest, rfl, ?_⟩
    injection hout with hout
    rw [← hout]

lemma minCritPrev_go (readings : List IRReading) :
    ∀ (ts : List ℤ) (acc out : List IRReading),
    ts.foldlM (minCritPrevStep readings) acc = .ok out →
    acc <+: out ∧ out.length = acc.length + ts.length ∧
    ∀ (m : ℕ) (hm : m < ts.length),
      ∃ w0 wr,
        readings.filter (fun r => decide (ts.get ⟨m, hm⟩ - 300 ≤ r.dt ∧
          r.dt < ts.get ⟨m, hm⟩)) = w0 :: wr ∧
        out.get? (acc.length + m) = some ⟨ts.get ⟨m, hm⟩,
          if (heightsMin (w0 :: wr) + RISE_CRITICAL - w0.height) / 5 < M_CRITICAL
          then 5 * M_CRITICAL + w0.height
          else heightsMin (w0 :: wr) + RISE_CRITICAL⟩
  | [], acc, out, hrun => by
    have hout : acc = out := by
      simp only [List.foldlM_nil] at hrun
      injection hrun
    subst hout
    exact ⟨List.prefix_refl acc, by simp, fun m hm => by simp at hm⟩
  | t :: ts, acc, out, hrun => by
    rw [List.foldlM_cons] at hrun
    cases hstep : minCritPrevStep readings acc t with
    | error e =>
      rw [hstep, error_bind] at hrun
      exact absurd hrun (by simp)
    | ok mid =>
      rw [hstep, ok_bind] at hrun
      obtain ⟨w0, wr, hwin, hmid⟩ := minCritPrevStep_ok_char readings acc t mid hstep
      subst hmid
      obtain ⟨hpre, hlen, hchar⟩ := minCritPrev_go readings ts _ out hrun
      refine ⟨(List.prefix_append acc _).trans hpre, ?_, ?_⟩
      · simp only [hlen, List.length_append, List.length_cons, List.length_nil]
        omega
      · intro m hm
        cases m with
        | zero =>
          obtain ⟨tl, rfl⟩ := hpre
          refine ⟨w0, wr, hwin, ?_⟩
          rw [Nat.add_zero]
          rw [List.get?_append (by simp), List.get?_concat_length]
          rfl
        | succ m2 =>
          have hm2 : m2 < ts.length := by simpa using hm
          obtain ⟨w0s, wrs, hwins, hgs⟩ := hchar m2 hm2
          refine ⟨w0s, wrs, hwins, ?_⟩
          have hidx : (acc ++ [(⟨t,
              if (heightsMin (w0 :: wr) + RISE_CRITICAL - w0.height) / 5 < M_CRITICAL
              then 5 * M_CRITICAL + w0.height
              else heightsMin (w0 :: wr) + RISE_CRITICAL⟩ : IRReading)]).length + m2 =
              acc.length + (m2 + 1) := by
            rw [List.length_append]
            simp only [List.length_singleton]
            omega
          rw [hidx] at hgs
          exact hgs

/-- C6.  Both threshold-projection curves.  Forward: for every projected
timestamp t_i = last.dt + 15 * (i + 1), the emitted threshold height
equals the minimum height over the trailing 5-hour window w (the
historical readings plus every projected reading so far, all of which lie
inside the window because the projection horizon is 4.5 hours) plus
RISE_CRITICAL, raised to w.first.height + 5 * M_CRITICAL exactly when the
implied 5-hour average rate falls below M_CRITICAL.  Backward: for every
timestamp t of the trailing 12 hours of readings, the emitted threshold
applies the identical rule to the historical readings in [t - 5h, t).
For the flat historical series at 20.5 ft every forward-projected
threshold equals 20.5 + RISE_CRITICAL = 23, the rate-floor bump not
binding. -/
theorem c6_projection_rule :
    (∀ (readings out : List IRReading) (rl : IRReading),
      pyGet readings (-1) = .ok rl →
      (∀ r ∈ readings, r.dt ≤ rl.dt) →
      min_cf_readings readings = .ok out →
      out.length = 18 ∧
      ∀ i (hi : i < out.length),
        ∃ w0 wr,
          (readings ++ out.take i).filter
            (fun r => decide (rl.dt + 15 * ((i : ℤ) + 1) - 300 ≤ r.dt ∧
              r.dt < rl.dt + 15 * ((i : ℤ) + 1))) = w0 :: wr ∧
          out.get ⟨i, hi⟩ = ⟨rl.dt + 15 * ((i : ℤ) + 1),
            if (heightsMin (w0 :: wr) + RISE_CRITICAL - w0.height) / 5 < M_CRITICAL
            then 5 * M_CRITICAL + w0.height
            else heightsMin (w0 :: wr) + RISE_CRITICAL⟩) ∧
    (∀ (readings out : List IRReading) (rl : IRReading),
      pyGet readings (-1) = .ok rl →
      min_crit_prev_readings readings = .ok out →
      out.length = (prev_datetimes readings rl).length ∧
      ∀ (m : ℕ) (hm : m < (prev_datetimes readings rl).length),
        ∃ w0 wr,
          readings.filter (fun r =>
            decide ((prev_datetimes readings rl).get ⟨m, hm⟩ - 300 ≤ r.dt ∧
              r.dt < (prev_datetimes readings rl).get ⟨m, hm⟩)) = w0 :: wr ∧
          out.get? m = some ⟨(prev_datetimes readings rl).get ⟨m, hm⟩,
            if (heightsMin (w0 :: wr) + RISE_CRITICAL - w0.height) / 5 < M_CRITICAL
            then 5 * M_CRITICAL + w0.height
            else heightsMin (w0 :: wr) + RISE_CRITICAL⟩) ∧
    min_cf_readings seriesFlatBase =
      .ok ((List.range 18).map (fun (k : ℕ) => ⟨60 + 15 * (k : ℤ), 23⟩)) := by
  refine ⟨?_, ?_, ?_⟩
  · intro readings out rl hlast hle hrun
    rw [min_cf_readings, hlast, ok_bind] at hrun
    have hshape : futureTimes rl.dt = (List.range 18).map
        (fun (m : ℕ) => rl.dt + 15 * (((0 : ℕ) : ℤ) + (m : ℤ) + 1)) := by
      rw [futureTimes]
      apply List.map_congr_left
      intro m hm
      push_cast
      ring
    rw [hshape] at hrun
    have h := minCf_go readings rl hle 18 0 [] out (by omega) rfl
      (by simp) hrun
    exact ⟨h.2.1, fun i hi => h.2.2.2 i (Nat.zero_le i) hi⟩
  · intro readings out rl hlast hrun
    rw [min_crit_prev_readings, hlast, ok_bind] at hrun
    have h := minCritPrev_go readings (prev_datetimes readings rl) [] out hrun
    refine ⟨by simpa using h.2.1, ?_⟩
    intro m hm
    obtain ⟨w0, wr, hwin, hg⟩ := h.2.2 m hm
    refine ⟨w0, wr, hwin, ?_⟩
    simpa using hg
  · with_unfolding_all decide

/-- Witness for c6_projection_rule: the forward projection on the flat
20.5 ft seriesFlatBase yields 18 thresholds of 23 ft, and the backward
projection on the flat 20.5 ft seriesFlatLong yields one threshold of
23 ft per trailing-12-hour reading. -/
theorem c6_projection_rule_witness :
    pyGet seriesFlatBase (-1) = .ok ⟨45, 41/2⟩ ∧
    (∀ r ∈ seriesFlatBase, r.dt ≤ (⟨45, (41 : ℚ)/2⟩ : IRReading).dt) ∧
    min_cf_readings seriesFlatBase =
      .ok ((List.range 18).map (fun (k : ℕ) => ⟨60 + 15 * (k : ℤ), 23⟩)) ∧
    ((List.range 18).map
      (fun (k : ℕ) => (⟨60 + 15 * (k : ℤ), 23⟩ : IRReading))).length = 18 ∧
    min_crit_prev_readings seriesFlatLong =
      .ok ((List.range 13).map (fun (k : ℕ) => ⟨420 + 60 * (k : ℤ), 23⟩)) ∧
    ((List.range 13).map
        (fun (k : ℕ) => (⟨420 + 60 * (k : ℤ), 23⟩ : IRReading))).length =
      (prev_datetimes seriesFlatLong ⟨1140, 41/2⟩).length :=
  ⟨by with_unfolding_all decide, by with_unfolding_all decide,
   c6_projection_rule.2.2,
   (c6_projection_rule.1 seriesFlatBase _ ⟨45, 41/2⟩
     (by with_unfolding_all decide) (by with_unfolding_all decide)
     c6_projection_rule.2.2).1,
   by with_unfolding_all decide,
   (c6_projection_rule.2.1 seriesFlatLong _ ⟨1140, 41/2⟩
     (by with_unfolding_all decide) (by with_unfolding_all decide)).1⟩
